import Mathlib

/-!
Shallow embedding of the flow-simulation core of `first-control-tower`:
the case lifecycle state machine (`src/services/CaseEngine.ts`) and the
particle animation engine (`src/services/ParticleSystem.ts`).

Numbers (JS `number`) are modelled as `ℚ`; `Math.random()` draws,
`Date.now()` timestamps and `Math.sqrt` are passed in explicitly so that
every definition is a pure, executable function of its inputs.
-/

/-- JS truthiness of a `string | null` value: `null` and the empty string
are falsy (the source tests `if (nextNodeId)` / `if (!this.config.startNodeId)`). -/
def strTruthy : Option String → Bool
  | none => false
  | some s => s != ""

/-- `ProcedureStage` from `components/nodes/ProcedureNode.tsx`. -/
structure ProcedureStage where
  label : String
  kind : String
  details : Option String
deriving DecidableEq, Repr

/-- `DEFAULT_PROCEDURE_STAGES` from `components/nodes/ProcedureNode.tsx`. -/
def DEFAULT_PROCEDURE_STAGES : List ProcedureStage :=
  [⟨"Verify Email Recipient", "ai", none⟩,
   ⟨"Categorize Email", "manual", none⟩,
   ⟨"Extract Customer Details", "user", none⟩,
   ⟨"Find Master Service Agreement", "manual", none⟩,
   ⟨"Review Master Service Agreement", "ai", none⟩,
   ⟨"Verify Information Completeness", "approval", none⟩,
   ⟨"If Missing Info, Compose Response", "ai", none⟩,
   ⟨"Prepare Work Order", "ai", none⟩,
   ⟨"Select Subcontractor", "ai", none⟩,
   ⟨"Obtain Approval", "approval", none⟩]

/-- The slice of a React Flow `Node` that `CaseEngine` reads: its `id`, its
`type`, and the `data` fields consulted by `getInboxConfig`,
`getOutboxConfig` and `getProcedureConfig`. A missing field is `none`. -/
structure NodeData where
  id : String
  nodeType : Option String
  casesPerMinute : Option ℚ
  holdDurationMin : Option ℚ
  holdDurationMax : Option ℚ
  retentionSeconds : Option ℚ
  stages : Option (List ProcedureStage)
deriving DecidableEq, Repr

/-- `CaseState` from `CaseEngine.ts` (the `at_procedure` member of the union
is declared in the source but never constructed). -/
inductive CaseState
  | at_inbox
  | transitioning
  | at_procedure
  | at_procedure_stage
  | at_outbox
deriving DecidableEq, Repr

/-- `Case` from `CaseEngine.ts`. `holdDuration` is the extra property
attached dynamically in `spawnCase` and read back with `?? 1000`. -/
structure Case where
  id : String
  state : CaseState
  currentNodeId : String
  currentStageIndex : ℤ
  progress : ℚ
  spawnedAt : ℚ
  stateStartedAt : ℚ
  holdDuration : Option ℚ
deriving DecidableEq, Repr

/-- `CaseEngineConfig` from `CaseEngine.ts` (defaults 100 and 500). -/
structure CaseEngineConfig where
  transitionDuration : ℚ
  stageDuration : ℚ
deriving DecidableEq, Repr

/-- `InboxConfig` from `CaseEngine.ts`. -/
structure InboxConfig where
  casesPerMinute : ℚ
  holdDurationMin : ℚ
  holdDurationMax : ℚ
deriving DecidableEq, Repr

/-- The engine's external environment at one tick: the node list set by
`setNodes`, the order set by `setProceduralOrder`, and the config. -/
structure CaseEnv where
  nodes : List NodeData
  proceduralOrder : List String
  config : CaseEngineConfig

namespace CaseEngine

/-- `this.nodes.find(n => n.id === nodeId)`. -/
def findNode (nodes : List NodeData) (nodeId : String) : Option NodeData :=
  nodes.find? (fun n => n.id == nodeId)

/-- `CaseEngine.getInboxConfig` (defaults 2, 500, 2000). -/
def getInboxConfig (nodes : List NodeData) : InboxConfig :=
  let inbox := findNode nodes "inbox"
  { casesPerMinute := (inbox.bind (·.casesPerMinute)).getD 2
    holdDurationMin := (inbox.bind (·.holdDurationMin)).getD 500
    holdDurationMax := (inbox.bind (·.holdDurationMax)).getD 2000 }

/-- `CaseEngine.getOutboxConfig` (default 3 seconds). -/
def getOutboxConfig (nodes : List NodeData) : ℚ :=
  ((findNode nodes "outbox").bind (·.retentionSeconds)).getD 3

/-- `CaseEngine.getProcedureConfig(nodeId).stages`
(`node?.data?.stages ?? DEFAULT_PROCEDURE_STAGES`). -/
def getProcedureConfig (nodes : List NodeData) (nodeId : String) : List ProcedureStage :=
  ((findNode nodes nodeId).bind (·.stages)).getD DEFAULT_PROCEDURE_STAGES

/-- `CaseEngine.getNextNodeId`: `indexOf`, then `null` when the id is absent
or last (`currentIndex >= length - 1`), else the successor. -/
def getNextNodeId (order : List String) (currentNodeId : String) : Option String :=
  match order.indexOf? currentNodeId with
  | none => none
  | some currentIndex =>
    if order.length ≤ currentIndex + 1 then none
    else order.get? (currentIndex + 1)

/-- `CaseEngine.getNodeType` (`node?.type ?? null`). -/
def getNodeType (nodes : List NodeData) (nodeId : String) : Option String :=
  (findNode nodes nodeId).bind (·.nodeType)

/-- `CaseEngine.spawnCase`: the `Case` inserted into the map, with the
`Date.now()` timestamp and the `Math.random()` draw passed explicitly
(`counterNext` is the incremented `caseIdCounter`). -/
def spawnCase (nodes : List NodeData) (counterNext : ℕ) (now rand : ℚ) : Case :=
  let inboxConfig := getInboxConfig nodes
  { id := "case-" ++ toString counterNext
    state := .at_inbox
    currentNodeId := "inbox"
    currentStageIndex := -1
    progress := 0
    spawnedAt := now
    stateStartedAt := now
    holdDuration := some (inboxConfig.holdDurationMin +
      rand * (inboxConfig.holdDurationMax - inboxConfig.holdDurationMin)) }

/-- `CaseEngine.updateCase`: `none` models the `null` return (case removed).
`ℚ` division by zero yields 0 where JS would give `Infinity`/`NaN`; theorems
that divide add positivity hypotheses on the durations involved. -/
def updateCase (env : CaseEnv) (caseItem : Case) (now : ℚ) : Option Case :=
  let elapsed := now - caseItem.stateStartedAt
  match caseItem.state with
  | .at_inbox =>
    let holdDuration := caseItem.holdDuration.getD 1000
    if elapsed ≥ holdDuration then
      let nextNodeId := getNextNodeId env.proceduralOrder caseItem.currentNodeId
      if strTruthy nextNodeId then
        some { caseItem with state := .transitioning, progress := 0, stateStartedAt := now }
      else some caseItem
    else some caseItem
  | .transitioning =>
    let progress := min 1 (elapsed / env.config.transitionDuration)
    if progress ≥ 1 then
      let nextNodeIdOpt := getNextNodeId env.proceduralOrder caseItem.currentNodeId
      if !strTruthy nextNodeIdOpt then some caseItem
      else
        let nextNodeId := nextNodeIdOpt.getD ""
        let nextType := getNodeType env.nodes nextNodeId
        if nextType == some "outbox" then
          some { caseItem with
                 state := .at_outbox
                 currentNodeId := nextNodeId
                 currentStageIndex := -1
                 progress := 0
                 stateStartedAt := now }
        else if nextType == some "procedure" then
          some { caseItem with
                 state := .at_procedure_stage
                 currentNodeId := nextNodeId
                 currentStageIndex := 0
                 progress := 0
                 stateStartedAt := now }
        else some { caseItem with progress := progress }
    else some { caseItem with progress := progress }
  | .at_procedure_stage =>
    let progress := min 1 (elapsed / env.config.stageDuration)
    let stages := getProcedureConfig env.nodes caseItem.currentNodeId
    if progress ≥ 1 then
      if caseItem.currentStageIndex < (stages.length : ℤ) - 1 then
        some { caseItem with
               currentStageIndex := caseItem.currentStageIndex + 1
               progress := 0
               stateStartedAt := now }
      else
        some { caseItem with state := .transitioning, progress := 0, stateStartedAt := now }
    else some { caseItem with progress := progress }
  | .at_outbox =>
    let retentionSeconds := getOutboxConfig env.nodes
    if elapsed ≥ retentionSeconds * 1000 then none
    else some { caseItem with progress := elapsed / (retentionSeconds * 1000) }
  | .at_procedure => some caseItem

/-- The mutable fields of the `CaseEngine` object (besides the injected
environment, which is bundled for completeness). -/
structure EngineState where
  cases : List (String × Case)
  config : CaseEngineConfig
  proceduralOrder : List String
  nodes : List NodeData
  lastSpawnTime : ℚ
  animationFrameId : Option ℕ
  caseIdCounter : ℕ
deriving DecidableEq, Repr

/-- `CaseEngine.stop`: cancels the animation frame. -/
def stop (s : EngineState) : EngineState :=
  { s with animationFrameId := none }

/-- `CaseEngine.reset`: `stop()`, `cases.clear()`, `caseIdCounter = 0`
(the `onUpdate([])` callback has no effect on engine state). -/
def reset (s : EngineState) : EngineState :=
  { stop s with cases := [], caseIdCounter := 0 }

/-- `CaseEngine.getCases`. -/
def getCases (s : EngineState) : List Case :=
  s.cases.map (·.2)

end CaseEngine

example : CaseEngine.getNextNodeId ["inbox", "p", "outbox"] "p" = some "outbox" := by decide

example : CaseEngine.getNextNodeId ["inbox", "p", "outbox"] "outbox" = none := by decide

example : CaseEngine.getNextNodeId ["inbox", "p", "outbox"] "zzz" = none := by decide

/-- `EdgePath` from `ParticleSystem.ts`. -/
structure EdgePath where
  sourceX : ℚ
  sourceY : ℚ
  targetX : ℚ
  targetY : ℚ
deriving DecidableEq, Repr

/-- `Particle` from `ParticleSystem.ts`. -/
structure Particle where
  id : String
  edgePath : List String
  edgeIndex : ℕ
  progress : ℚ
  speed : ℚ
  color : String
  trail : List (ℚ × ℚ)
  maxTrailLength : ℕ
  size : ℚ
  lateralOffset : ℚ
deriving DecidableEq, Repr

/-- `Required<ParticleSystemConfig>` from `ParticleSystem.ts`, after the
constructor fills the defaults. -/
structure ParticleSystemConfig where
  maxParticles : ℕ
  spawnRate : ℚ
  flowSpeed : ℚ
  colors : List String
  trailLength : ℕ
  particleSizeRange : ℚ × ℚ
  speedVariation : ℚ × ℚ
  startNodeId : Option String
  showTrails : Bool
  trajectoryColor : String
  trajectoryOpacity : ℚ
  trajectoryWidth : ℚ
  lateralSpread : ℚ
deriving DecidableEq, Repr

/-- `EdgeInfo` from `ParticleSystem.ts` (one adjacency entry). -/
structure EdgeInfo where
  edgeId : String
  target : String
  weight : ℚ
deriving DecidableEq, Repr, Inhabited

/-- The `Math.random()` draws consumed by one spawn: the id suffix is
abstracted to a string, `pathDraws k` is the k-th draw of the router loop,
`fuel` bounds the source's unbounded `while` loop, and the remaining draws
feed the particle's speed, color, size and lateral offset. -/
structure SpawnDraws where
  idStr : String
  pathDraws : ℕ → ℚ
  fuel : ℕ
  speedDraw : ℚ
  colorDraw : ℚ
  sizeDraw : ℚ
  lateralDraw : ℚ

/-- The mutable fields of the `ParticleSystem` object. The adjacency map
(a `Map<string, EdgeInfo[]>`) is modelled as a total function
`String → List EdgeInfo`; `Map.has(v) && Map.get(v)!.length > 0`
collapses to `adj v ≠ []`. -/
structure ParticleState where
  particles : List Particle
  edgePaths : List (String × EdgePath)
  selectedEdgeIds : List String
  config : ParticleSystemConfig
  lastSpawnTime : ℚ
  completedCount : ℕ
  recentCompletions : List ℚ
deriving Repr

namespace ParticleSystem

/-- `edges.reduce((sum, e) => sum + e.weight, 0)`. -/
def totalWeight (edges : List EdgeInfo) : ℚ :=
  edges.foldl (fun sum e => sum + e.weight) 0

/-- The selection loop of `_generatePath`: `r -= edge.weight; if (r <= 0)
take the edge and break`, with `chosen` still `edges[0]` when the loop
never fires. -/
def pickEdge : List EdgeInfo → EdgeInfo → ℚ → EdgeInfo
  | [], chosen, _ => chosen
  | e :: rest, chosen, r => if r - e.weight ≤ 0 then e else pickEdge rest chosen (r - e.weight)

/-- `ParticleSystem._generatePath`. The source's `while` loop has no
iteration bound, so it is modelled with explicit fuel: the `Bool` is `true`
when the loop exited by reaching a sink within the given fuel and `false`
when fuel ran out first; `k` indexes the `Math.random()` draws. -/
def generatePathAux (adj : String → List EdgeInfo) (draws : ℕ → ℚ) :
    ℕ → ℕ → String → List String × Bool
  | 0, _, current => ([], (adj current).isEmpty)
  | fuel + 1, k, current =>
    let edges := adj current
    if edges.isEmpty then ([], true)
    else
      let r := draws k * totalWeight edges
      let chosen := pickEdge edges edges.headI r
      let next := generatePathAux adj draws fuel (k + 1) chosen.target
      (chosen.edgeId :: next.1, next.2)

/-- `_generatePath(startNodeId)` with the draw counter starting at 0. -/
def generatePath (adj : String → List EdgeInfo) (draws : ℕ → ℚ) (fuel : ℕ)
    (startNodeId : String) : List String × Bool :=
  generatePathAux adj draws fuel 0 startNodeId

/-- The source's `while` loop returns at all: some finite fuel suffices for
the walk to reach a sink. -/
def routerTerminates (adj : String → List EdgeInfo) (draws : ℕ → ℚ)
    (startNodeId : String) : Prop :=
  ∃ fuel, (generatePath adj draws fuel startNodeId).2 = true

/-- Lookup in the `Map<string, EdgePath>` set by `setEdgePaths`. -/
def lookupEdgePath (paths : List (String × EdgePath)) (edgeId : String) : Option EdgePath :=
  (paths.find? (fun q => q.1 == edgeId)).map (·.2)

/-- `ParticleSystem._getPositionAlongEdge`. `Math.sqrt` is modelled by the
explicit argument `sq` (the lateral branch is its only use). The source's
`| null` return type is never exercised: every path returns a point. -/
def getPositionAlongEdge (sq : ℚ → ℚ) (lateralSpread : ℚ) (edgeData : EdgePath)
    (t : ℚ) (lateralOffset : ℚ) : ℚ × ℚ :=
  let centerY := (edgeData.sourceY + edgeData.targetY) / 2
  let p0 : ℚ × ℚ := (edgeData.sourceX, edgeData.sourceY)
  let p1 : ℚ × ℚ := (edgeData.sourceX, centerY)
  let p2 : ℚ × ℚ := (edgeData.targetX, centerY)
  let p3 : ℚ × ℚ := (edgeData.targetX, edgeData.targetY)
  let mt := 1 - t
  let mt2 := mt * mt
  let mt3 := mt2 * mt
  let t2 := t * t
  let t3 := t2 * t
  let x := mt3 * p0.1 + 3 * mt2 * t * p1.1 + 3 * mt * t2 * p2.1 + t3 * p3.1
  let y := mt3 * p0.2 + 3 * mt2 * t * p1.2 + 3 * mt * t2 * p2.2 + t3 * p3.2
  if lateralSpread > 0 ∧ lateralOffset ≠ 0 then
    let dx := 3 * mt2 * (p1.1 - p0.1) + 6 * mt * t * (p2.1 - p1.1) + 3 * t2 * (p3.1 - p2.1)
    let dy := 3 * mt2 * (p1.2 - p0.2) + 6 * mt * t * (p2.2 - p1.2) + 3 * t2 * (p3.2 - p2.2)
    let len := sq (dx * dx + dy * dy)
    if len > 0 then
      let nx := -dy / len
      let ny := dx / len
      (x + nx * lateralOffset * lateralSpread, y + ny * lateralOffset * lateralSpread)
    else (x, y)
  else (x, y)

/-- The particle object literal pushed by `_spawnParticle`, `spawnOne` and
`spawnFrom` (verbatim identical in the three methods). -/
def mkParticle (config : ParticleSystemConfig) (edgePath : List String)
    (d : SpawnDraws) : Particle :=
  { id := d.idStr
    edgePath := edgePath
    edgeIndex := 0
    progress := 0
    speed := config.speedVariation.1 + d.speedDraw * (config.speedVariation.2 - config.speedVariation.1)
    color := (config.colors.get? ((d.colorDraw * (config.colors.length : ℚ)).floor).toNat).getD ""
    trail := []
    maxTrailLength := config.trailLength
    size := config.particleSizeRange.1 + d.sizeDraw * (config.particleSizeRange.2 - config.particleSizeRange.1)
    lateralOffset := d.lateralDraw * 2 - 1 }

/-- `ParticleSystem._spawnParticle(time)`: the scheduled spawn inside
`update`. Note that `_lastSpawnTime` is written before the router runs, so
an empty path still records the spawn time. -/
def spawnParticle (adj : String → List EdgeInfo) (s : ParticleState) (time : ℚ)
    (d : SpawnDraws) : ParticleState :=
  if !strTruthy s.config.startNodeId then s
  else if s.particles.length ≥ s.config.maxParticles then s
  else
    let spawnInterval := 1000 / s.config.spawnRate
    if time - s.lastSpawnTime < spawnInterval then s
    else
      let s' := { s with lastSpawnTime := time }
      let edgePath := (generatePath adj d.pathDraws d.fuel (s.config.startNodeId.getD "")).1
      if edgePath.isEmpty then s'
      else { s' with particles := s'.particles ++ [mkParticle s.config edgePath d] }

/-- The per-particle body of `_updateParticles` for a live particle (the
`else` side of the completion check): progress advance, trail append with
one-element truncation, then edge advance at `progress >= 1`. -/
def stepParticle (sq : ℚ → ℚ) (config : ParticleSystemConfig)
    (edgePaths : List (String × EdgePath)) (dt : ℚ) (p : Particle) : Particle :=
  let speedMultiplier := config.flowSpeed * p.speed
  let progress := p.progress + dt * speedMultiplier * (1 / 1000)
  let p1 := { p with progress := progress }
  let p2 :=
    match (p1.edgePath.get? p1.edgeIndex).bind (lookupEdgePath edgePaths) with
    | none => p1
    | some edgeData =>
      let pos := getPositionAlongEdge sq config.lateralSpread edgeData p1.progress p1.lateralOffset
      let trail := pos :: p1.trail
      { p1 with trail := if p1.maxTrailLength < trail.length then trail.dropLast else trail }
  if p2.progress ≥ 1 then { p2 with progress := 0, edgeIndex := p2.edgeIndex + 1 }
  else p2

/-- The `forEach`/`splice` pass of `_updateParticles`, folded over the
particle list: returns the surviving (stepped) particles, the number of
completions and the completion timestamps pushed (each is `Date.now()`,
passed here as `nowMs`). -/
def updateLoop (sq : ℚ → ℚ) (config : ParticleSystemConfig)
    (edgePaths : List (String × EdgePath)) (dt nowMs : ℚ) :
    List Particle → List Particle × ℕ × List ℚ
  | [] => ([], 0, [])
  | p :: rest =>
    let next := updateLoop sq config edgePaths dt nowMs rest
    if p.edgePath.length ≤ p.edgeIndex then (next.1, next.2.1 + 1, nowMs :: next.2.2)
    else (stepParticle sq config edgePaths dt p :: next.1, next.2.1, next.2.2)

/-- `ParticleSystem._updateParticles(dt)` (`nowMs` models the `Date.now()`
calls recording completion timestamps). -/
def updateParticles (sq : ℚ → ℚ) (s : ParticleState) (dt nowMs : ℚ) : ParticleState :=
  let res := updateLoop sq s.config s.edgePaths dt nowMs s.particles
  { s with
    particles := res.1
    completedCount := s.completedCount + res.2.1
    recentCompletions := s.recentCompletions ++ res.2.2 }

/-- `ParticleSystem._cleanupCompletions` (rolling 5-second window). -/
def cleanupCompletions (s : ParticleState) (nowMs : ℚ) : ParticleState :=
  { s with recentCompletions := s.recentCompletions.filter (fun t => t > nowMs - 5000) }

/-- `ParticleSystem.update(dt, time)`: scheduled spawn, particle advance,
completion-window cleanup. -/
def update (sq : ℚ → ℚ) (adj : String → List EdgeInfo) (s : ParticleState)
    (dt time nowMs : ℚ) (d : SpawnDraws) : ParticleState :=
  cleanupCompletions (updateParticles sq (spawnParticle adj s time d) dt nowMs) nowMs

/-- `ParticleSystem.clear`. -/
def clear (s : ParticleState) : ParticleState :=
  { s with particles := [] }

/-- `ParticleSystem.spawnOne`. -/
def spawnOne (adj : String → List EdgeInfo) (s : ParticleState) (d : SpawnDraws) :
    ParticleState :=
  if !strTruthy s.config.startNodeId then s
  else if s.particles.length ≥ s.config.maxParticles then s
  else
    let edgePath := (generatePath adj d.pathDraws d.fuel (s.config.startNodeId.getD "")).1
    if edgePath.isEmpty then s
    else { s with particles := s.particles ++ [mkParticle s.config edgePath d] }

/-- `ParticleSystem.spawnFrom(nodeId)`. -/
def spawnFrom (adj : String → List EdgeInfo) (s : ParticleState) (nodeId : String)
    (d : SpawnDraws) : ParticleState :=
  if s.particles.length ≥ s.config.maxParticles then s
  else
    let edgePath := (generatePath adj d.pathDraws d.fuel nodeId).1
    if edgePath.isEmpty then s
    else { s with particles := s.particles ++ [mkParticle s.config edgePath d] }

end ParticleSystem

/-- One public mutating operation on the particle system, for stating
properties of arbitrary call sequences. -/
inductive PSOp
  | tick (dt time nowMs : ℚ) (d : SpawnDraws)
  | one (d : SpawnDraws)
  | from_ (nodeId : String) (d : SpawnDraws)

namespace ParticleSystem

/-- Apply one operation. -/
def applyOp (sq : ℚ → ℚ) (adj : String → List EdgeInfo) (s : ParticleState) :
    PSOp → ParticleState
  | .tick dt time nowMs d => update sq adj s dt time nowMs d
  | .one d => spawnOne adj s d
  | .from_ nodeId d => spawnFrom adj s nodeId d

/-- Apply a sequence of operations in order. -/
def runOps (sq : ℚ → ℚ) (adj : String → List EdgeInfo) (s : ParticleState) :
    List PSOp → ParticleState
  | [] => s
  | op :: rest => runOps sq adj (applyOp sq adj s op) rest

/-- A computable stand-in for `Math.sqrt` that is exact on perfect squares
(in particular `ratSqrt 9 = 3`); used to instantiate the `sq` oracle on
concrete inputs. -/
def ratSqrt (q : ℚ) : ℚ :=
  (Nat.sqrt q.num.toNat : ℚ) / (Nat.sqrt q.den : ℚ)

end ParticleSystem

/-- The curve of spec section 4.1, written from the spec's words: the cubic
Bézier through (sourceX, sourceY) and (targetX, targetY) whose control
points are (sourceX, midY) and (targetX, midY) with midY the average of
the two Y values. Used to compare `_getPositionAlongEdge` against the spec. -/
def specBezier (e : EdgePath) (t : ℚ) : ℚ × ℚ :=
  let midY := (e.sourceY + e.targetY) / 2
  ((1 - t) ^ 3 * e.sourceX + 3 * (1 - t) ^ 2 * t * e.sourceX
     + 3 * (1 - t) * t ^ 2 * e.targetX + t ^ 3 * e.targetX,
   (1 - t) ^ 3 * e.sourceY + 3 * (1 - t) ^ 2 * t * midY
     + 3 * (1 - t) * t ^ 2 * midY + t ^ 3 * e.targetY)

example : ParticleSystem.generatePath (fun _ => []) (fun _ => 0) 5 "a" = ([], true) := by decide

example :
    ParticleSystem.generatePath
      (fun n => if n = "a" then [⟨"e1", "b", 1⟩] else if n = "b" then [⟨"e2", "c", 1⟩] else [])
      (fun _ => 0) 7 "a" = (["e1", "e2"], true) := by
  norm_num [ParticleSystem.generatePath, ParticleSystem.generatePathAux,
    ParticleSystem.pickEdge, ParticleSystem.totalWeight]
  simp

/-- C9: reset() is idempotent and never throws: from any engine state it
yields an empty case set, a second reset again yields an empty case set,
and reset after reset equals reset; likewise ParticleSystem.clear. -/
theorem C9_reset_idempotent (s : CaseEngine.EngineState) (ps : ParticleState) :
    CaseEngine.getCases (CaseEngine.reset s) = [] ∧
    CaseEngine.getCases (CaseEngine.reset (CaseEngine.reset s)) = [] ∧
    CaseEngine.reset (CaseEngine.reset s) = CaseEngine.reset s ∧
    (ParticleSystem.clear ps).particles = [] ∧
    ParticleSystem.clear (ParticleSystem.clear ps) = ParticleSystem.clear ps :=
  ⟨rfl, rfl, rfl, rfl, rfl⟩

/-- C10: a case surviving `updateCase` keeps its id, its spawnedAt timestamp
and the hold duration assigned at creation; only the other five fields
(state, currentNodeId, currentStageIndex, progress, stateStartedAt) can
change. -/
theorem C10_update_frame (env : CaseEnv) (c c' : Case) (now : ℚ)
    (h : CaseEngine.updateCase env c now = some c') :
    c'.id = c.id ∧ c'.spawnedAt = c.spawnedAt ∧ c'.holdDuration = c.holdDuration := by
  obtain ⟨cid, cstate, cnode, cidx, cprog, cspawn, cstart, chold⟩ := c
  cases cstate <;>
    (unfold CaseEngine.updateCase at h; dsimp only at h) <;>
    (repeat' split at h) <;>
    (first
      | (cases h; exact ⟨rfl, rfl, rfl⟩)
      | exact absurd h (by simp))

/-- Witness for C10 at a concrete input (the default branch of the switch). -/
theorem C10_update_frame_witness :
    (⟨"x", .at_procedure, "n", -1, 0, 0, 0, none⟩ : Case).id = "x" ∧
    (0 : ℚ) = 0 ∧ (none : Option ℚ) = none := by
  have h := C10_update_frame ⟨[], [], ⟨100, 500⟩⟩
    ⟨"x", .at_procedure, "n", -1, 0, 0, 0, none⟩
    ⟨"x", .at_procedure, "n", -1, 0, 0, 0, none⟩ 0 rfl
  exact ⟨h.1, rfl, h.2.2⟩

/-- C8: `updateCase` removes a case (returns `none`) only from `at_outbox`
once the retention period has elapsed; and a case in `at_inbox` or
`transitioning` whose trigger has fired but whose `getNextNodeId` is `null`
is returned unchanged (it freezes in place). -/
theorem C8_freeze_not_drop (env : CaseEnv) (c : Case) (now : ℚ) :
    (CaseEngine.updateCase env c now = none →
      c.state = .at_outbox ∧
      now - c.stateStartedAt ≥ CaseEngine.getOutboxConfig env.nodes * 1000) ∧
    (CaseEngine.getNextNodeId env.proceduralOrder c.currentNodeId = none →
      (c.state = .at_inbox ∧ now - c.stateStartedAt ≥ c.holdDuration.getD 1000) ∨
        (c.state = .transitioning ∧
          min 1 ((now - c.stateStartedAt) / env.config.transitionDuration) ≥ 1) →
      CaseEngine.updateCase env c now = some c) := by
  constructor
  · intro h
    obtain ⟨cid, cstate, cnode, cidx, cprog, cspawn, cstart, chold⟩ := c
    cases cstate <;>
      (unfold CaseEngine.updateCase at h; dsimp only at h) <;>
      (repeat' split at h) <;>
      first
        | (rename_i hcond; exact ⟨rfl, hcond⟩)
        | (cases h)
  · rintro hnone (⟨hst, htrig⟩ | ⟨hst, htrig⟩) <;>
      (obtain ⟨cid, cstate, cnode, cidx, cprog, cspawn, cstart, chold⟩ := c;
       cases cstate <;> simp_all [CaseEngine.updateCase, strTruthy])

/-- Witness for C8 at a concrete input: a case at the inbox past its hold
duration with no successor in the procedural order freezes unchanged. -/
theorem C8_freeze_not_drop_witness :
    CaseEngine.updateCase ⟨[], [], ⟨100, 500⟩⟩
      ⟨"x", .at_inbox, "lonely", -1, 0, 0, 0, none⟩ 2000 =
      some ⟨"x", .at_inbox, "lonely", -1, 0, 0, 0, none⟩ :=
  (C8_freeze_not_drop ⟨[], [], ⟨100, 500⟩⟩
      ⟨"x", .at_inbox, "lonely", -1, 0, 0, 0, none⟩ 2000).2
    rfl (Or.inl ⟨rfl, by norm_num⟩)

namespace ParticleSystem

/-- The selection loop returns either the initial `chosen` (the fallback
`edges[0]`) or an element of the scanned list. -/
theorem pickEdge_eq_or_mem (edges : List EdgeInfo) (chosen : EdgeInfo) (r : ℚ) :
    pickEdge edges chosen r = chosen ∨ pickEdge edges chosen r ∈ edges := by
  induction edges generalizing r with
  | nil => exact Or.inl rfl
  | cons e rest ih =>
    unfold pickEdge
    split
    · exact Or.inr (List.mem_cons_self e rest)
    · rcases ih (r - e.weight) with h | h
      · exact Or.inl h
      · exact Or.inr (List.mem_cons_of_mem e h)

/-- From a sink the loop body never runs: empty path, finished. -/
theorem generatePathAux_sink (adj : String → List EdgeInfo) (draws : ℕ → ℚ)
    (fuel k : ℕ) (cur : String) (h : adj cur = []) :
    generatePathAux adj draws fuel k cur = ([], true) := by
  cases fuel <;> simp [generatePathAux, h]

/-- With a rank function that strictly decreases along every edge (a DAG
certificate), the walk reaches a sink within `rank cur` steps. -/
theorem generatePathAux_finishes_of_rank (adj : String → List EdgeInfo) (draws : ℕ → ℚ)
    (rank : String → ℕ) (hrank : ∀ u, ∀ e ∈ adj u, rank e.target < rank u) :
    ∀ fuel k cur, rank cur ≤ fuel → (generatePathAux adj draws fuel k cur).2 = true := by
  intro fuel
  induction fuel with
  | zero =>
    intro k cur hcur
    cases h : adj cur with
    | nil => simp [generatePathAux, h]
    | cons e rest =>
      have := hrank cur e (by rw [h]; exact List.mem_cons_self e rest)
      omega
  | succ fuel ih =>
    intro k cur hcur
    cases h : adj cur with
    | nil => simp [generatePathAux, h]
    | cons e rest =>
      have hmem : pickEdge (e :: rest) e (draws k * totalWeight (e :: rest)) ∈ adj cur := by
        rcases pickEdge_eq_or_mem (e :: rest) e (draws k * totalWeight (e :: rest)) with hp | hp
        · rw [hp, h]; exact List.mem_cons_self e rest
        · rw [h]; exact hp
      have hlt := hrank cur _ hmem
      have hle : rank (pickEdge (e :: rest) e (draws k * totalWeight (e :: rest))).target ≤ fuel := by
        omega
      simpa [generatePathAux, h] using ih (k + 1) _ hle

end ParticleSystem

/-- A one-node cycle: node "a" with a single self-loop edge of weight 1.
Refutes the claimed hop bound of `_generatePath`. -/
def selfLoopAdj : String → List EdgeInfo :=
  fun n => if n = "a" then [⟨"e", "a", 1⟩] else []

/-- In `selfLoopAdj` the walk stays at "a" forever: no fuel reaches a sink. -/
theorem selfLoop_no_finish (fuel k : ℕ) :
    (ParticleSystem.generatePathAux selfLoopAdj (fun _ => 0) fuel k "a").2 = false := by
  induction fuel generalizing k with
  | zero => simp [ParticleSystem.generatePathAux, selfLoopAdj]
  | succ fuel ih =>
    simp [ParticleSystem.generatePathAux, selfLoopAdj, ParticleSystem.pickEdge, ih]

/-- C2 (counterexample): `_generatePath` has no hop bound: on the self-loop
adjacency it never stops, for every amount of fuel — the claimed cycle
guard does not exist in the code. -/
theorem C2_counterexample :
    ¬ ParticleSystem.routerTerminates selfLoopAdj (fun _ => 0) "a" := by
  rintro ⟨fuel, hf⟩
  rw [ParticleSystem.generatePath, selfLoop_no_finish fuel 0] at hf
  exact Bool.false_ne_true hf

/-- C2 (amended): path generation stops at a sink, and terminates whenever
the adjacency map admits a rank function strictly decreasing along edges
(in particular on every DAG); there is no hop bound, so on cyclic graphs
the loop need not terminate. -/
theorem C2_router_terminates_on_dag (adj : String → List EdgeInfo) (draws : ℕ → ℚ)
    (rank : String → ℕ) (hrank : ∀ u, ∀ e ∈ adj u, rank e.target < rank u)
    (startNodeId : String) :
    ParticleSystem.routerTerminates adj draws startNodeId :=
  ⟨rank startNodeId,
    ParticleSystem.generatePathAux_finishes_of_rank adj draws rank hrank _ 0 _ le_rfl⟩

/-- Concrete two-edge chain a --e1--> b --e2--> c, used in witnesses and
counterexamples for the router claims. -/
def chainAdj : String → List EdgeInfo := fun n =>
  if n = "a" then [⟨"e1", "b", 1⟩] else if n = "b" then [⟨"e2", "c", 1⟩] else []

/-- Topological rank certificate for `chainAdj`. -/
def chainRank : String → ℕ := fun n => if n = "a" then 2 else if n = "b" then 1 else 0

/-- `chainRank` strictly decreases along every edge of `chainAdj`. -/
theorem chainRank_decreases : ∀ u, ∀ e ∈ chainAdj u, chainRank e.target < chainRank u := by
  intro u e he
  unfold chainAdj at he
  split at he
  · rename_i h1
    simp only [List.mem_singleton] at he
    subst he
    simp [chainRank, h1]
  · split at he
    · rename_i h1 h2
      simp only [List.mem_singleton] at he
      subst he
      simp [chainRank, h2]
    · simp at he

/-- Witness for C2 at a concrete input: the router terminates on the
two-edge chain. -/
theorem C2_router_terminates_on_dag_witness :
    ParticleSystem.routerTerminates chainAdj (fun _ => 0) "a" :=
  C2_router_terminates_on_dag chainAdj (fun _ => 0) chainRank chainRank_decreases "a"

/-- C4 (amended): a sink start always yields the empty path; a start node
with exactly one outgoing edge of weight 1 yields exactly that one edge
when the edge's target is a sink (otherwise the walk continues past it). -/
theorem C4_router_small_graphs (adj : String → List EdgeInfo) (draws : ℕ → ℚ) (fuel : ℕ) :
    (∀ startNodeId, adj startNodeId = [] →
      ParticleSystem.generatePath adj draws fuel startNodeId = ([], true)) ∧
    (∀ a e, adj a = [e] → e.weight = 1 → adj e.target = [] → 1 ≤ fuel →
      ParticleSystem.generatePath adj draws fuel a = ([e.edgeId], true)) := by
  constructor
  · intro start h
    exact ParticleSystem.generatePathAux_sink adj draws fuel 0 start h
  · intro a e ha hw hsink hfuel
    obtain ⟨fuel, rfl⟩ : ∃ f, fuel = f + 1 := ⟨fuel - 1, by omega⟩
    rw [ParticleSystem.generatePath]
    simp only [ParticleSystem.generatePathAux, ha, List.isEmpty_cons, ParticleSystem.pickEdge,
      List.headI, ite_self, Bool.false_eq_true, if_false]
    rw [ParticleSystem.generatePathAux_sink adj draws fuel 1 e.target hsink]

/-- Witness for C4 at concrete inputs: on the chain graph, the sink "c"
yields the empty path and node "b" (one edge, weight 1, target a sink)
yields exactly its one edge. -/
theorem C4_router_small_graphs_witness :
    ParticleSystem.generatePath chainAdj (fun _ => 0) 5 "c" = ([], true) ∧
    ParticleSystem.generatePath chainAdj (fun _ => 0) 5 "b" = (["e2"], true) :=
  ⟨(C4_router_small_graphs chainAdj (fun _ => 0) 5).1 "c" rfl,
   (C4_router_small_graphs chainAdj (fun _ => 0) 5).2 "b" ⟨"e2", "c", 1⟩ rfl rfl rfl
     (by omega)⟩

/-- C4 (counterexample): node "a" of the chain has exactly one outgoing
edge of weight 1, yet the generated path has two edges, not one — the
walk only stops at a sink. -/
theorem C4_counterexample :
    chainAdj "a" = [⟨"e1", "b", 1⟩] ∧
    ParticleSystem.generatePath chainAdj (fun _ => 0) 2 "a" = (["e1", "e2"], true) ∧
    (["e1", "e2"] : List String) ≠ ["e1"] := by
  refine ⟨rfl, ?_, by decide⟩
  norm_num [ParticleSystem.generatePath, ParticleSystem.generatePathAux,
    ParticleSystem.pickEdge, ParticleSystem.totalWeight, chainAdj]
  simp

/-- `ratSqrt` agrees with the exact square root at 9 (the value the
counterexample feeds to the `Math.sqrt` stand-in). -/
theorem ratSqrt_nine : ParticleSystem.ratSqrt 9 = 3 := by
  have h9 : ((9 : ℚ).num.toNat) = 9 := by norm_num; rfl
  have hd : ((9 : ℚ).den) = 1 := by norm_num
  unfold ParticleSystem.ratSqrt
  rw [h9, hd]
  rw [show (9 : ℕ) = 3 ^ 2 from by norm_num, Nat.sqrt_eq']
  rw [show (1 : ℕ) = 1 ^ 2 from by norm_num, Nat.sqrt_eq']
  norm_num

/-- The endpoint displacement does not depend on the sqrt stand-in: every
model of `Math.sqrt` that returns the exact value 3 at 9 yields the same
displaced point (-1, 0) instead of the source endpoint (0, 0). -/
theorem lateral_offset_moves_endpoint (sq : ℚ → ℚ) (h : sq 9 = 3) :
    ParticleSystem.getPositionAlongEdge sq 1 ⟨0, 0, 0, 2⟩ 0 1 = (-1, 0) := by
  norm_num [ParticleSystem.getPositionAlongEdge, h]

/-- C3 (counterexample): with lateralSpread 1 and lateralOffset 1 on the
vertical edge (0,0)-(0,2), the position at t = 0 is (-1, 0), not the
source endpoint (0, 0): the lateral-offset branch displaces the endpoints. -/
theorem C3_counterexample :
    ParticleSystem.getPositionAlongEdge ParticleSystem.ratSqrt 1 ⟨0, 0, 0, 2⟩ 0 1 ≠ (0, 0) := by
  rw [lateral_offset_moves_endpoint ParticleSystem.ratSqrt ratSqrt_nine]
  simp [Prod.ext_iff]

/-- C3 (amended): `_getPositionAlongEdge` evaluates the cubic Bézier with
control points (sourceX, midY) and (targetX, midY), midY the average of the
two Y values, and returns the exact endpoints at t = 0 and t = 1, whenever
the lateral offset is disabled (lateralSpread ≤ 0 or lateralOffset = 0);
with an active lateral offset the returned point is displaced along the
curve normal, including at the endpoints. -/
theorem C3_bezier_endpoints (sq : ℚ → ℚ) (lateralSpread lateralOffset t : ℚ) (e : EdgePath)
    (h : lateralSpread ≤ 0 ∨ lateralOffset = 0) :
    ParticleSystem.getPositionAlongEdge sq lateralSpread e t lateralOffset = specBezier e t ∧
    ParticleSystem.getPositionAlongEdge sq lateralSpread e 0 lateralOffset =
      (e.sourceX, e.sourceY) ∧
    ParticleSystem.getPositionAlongEdge sq lateralSpread e 1 lateralOffset =
      (e.targetX, e.targetY) := by
  have hcond : ¬(lateralSpread > 0 ∧ lateralOffset ≠ 0) := by
    rcases h with h | h
    · rintro ⟨h1, _⟩; linarith
    · rintro ⟨_, h2⟩; exact h2 h
  refine ⟨?_, ?_, ?_⟩ <;>
    (simp only [ParticleSystem.getPositionAlongEdge]; rw [if_neg hcond];
     simp [specBezier, Prod.ext_iff]) <;>
    (try constructor) <;> (try ring)

/-- Witness for C3 at a concrete input: with the lateral offset disabled
the endpoints are exact on the edge (1,2)-(3,4). -/
theorem C3_bezier_endpoints_witness :
    ParticleSystem.getPositionAlongEdge ParticleSystem.ratSqrt 0 ⟨1, 2, 3, 4⟩ 0 1 = (1, 2) ∧
    ParticleSystem.getPositionAlongEdge ParticleSystem.ratSqrt 0 ⟨1, 2, 3, 4⟩ 1 1 = (3, 4) :=
  ⟨(C3_bezier_endpoints ParticleSystem.ratSqrt 0 1 0 ⟨1, 2, 3, 4⟩ (Or.inl le_rfl)).2.1,
   (C3_bezier_endpoints ParticleSystem.ratSqrt 0 1 1 ⟨1, 2, 3, 4⟩ (Or.inl le_rfl)).2.2⟩

namespace ParticleSystem

/-- A step of a live particle keeps its path and advances its edge index by
zero or one. -/
theorem stepParticle_fields (sq : ℚ → ℚ) (cfg : ParticleSystemConfig)
    (paths : List (String × EdgePath)) (dt : ℚ) (p : Particle) :
    (stepParticle sq cfg paths dt p).edgePath = p.edgePath ∧
    ((stepParticle sq cfg paths dt p).edgeIndex = p.edgeIndex ∨
      (stepParticle sq cfg paths dt p).edgeIndex = p.edgeIndex + 1) := by
  unfold stepParticle
  dsimp only
  split <;> split <;> simp

/-- The `forEach`/`splice` pass, in closed form: survivors are exactly the
stepped live particles (in order), and the completion count and timestamp
list come from the particles whose edge index has passed the end. -/
theorem updateLoop_spec (sq : ℚ → ℚ) (cfg : ParticleSystemConfig)
    (paths : List (String × EdgePath)) (dt nowMs : ℚ) (ps : List Particle) :
    (updateLoop sq cfg paths dt nowMs ps).1 =
      (ps.filter (fun p => decide (p.edgeIndex < p.edgePath.length))).map
        (stepParticle sq cfg paths dt) ∧
    (updateLoop sq cfg paths dt nowMs ps).2.1 =
      (ps.filter (fun p => decide (p.edgePath.length ≤ p.edgeIndex))).length ∧
    (updateLoop sq cfg paths dt nowMs ps).2.2 =
      List.replicate
        (ps.filter (fun p => decide (p.edgePath.length ≤ p.edgeIndex))).length nowMs := by
  induction ps with
  | nil => simp [updateLoop]
  | cons p rest ih =>
    by_cases h : p.edgePath.length ≤ p.edgeIndex
    · simp [updateLoop, h, Nat.not_lt.mpr h, ih.1, ih.2.1, ih.2.2, List.replicate_succ]
    · simp [updateLoop, h, Nat.not_le.mp h, ih.1, ih.2.1, ih.2.2]

end ParticleSystem

/-- C5: if every particle's edge index is within [0, path length] before an
update pass, the same holds afterwards; and the pass removes exactly the
particles whose edge index has reached the end of their path — they are
dropped (not stepped, so their progress is not advanced) and counted as
completed. -/
theorem C5_edge_index_invariant (sq : ℚ → ℚ) (s : ParticleState) (dt nowMs : ℚ)
    (hinv : ∀ p ∈ s.particles, p.edgeIndex ≤ p.edgePath.length) :
    (∀ p ∈ (ParticleSystem.updateParticles sq s dt nowMs).particles,
        p.edgeIndex ≤ p.edgePath.length) ∧
    (ParticleSystem.updateParticles sq s dt nowMs).particles =
      (s.particles.filter (fun p => decide (p.edgeIndex < p.edgePath.length))).map
        (ParticleSystem.stepParticle sq s.config s.edgePaths dt) ∧
    (ParticleSystem.updateParticles sq s dt nowMs).completedCount =
      s.completedCount +
        (s.particles.filter (fun p => decide (p.edgeIndex = p.edgePath.length))).length := by
  obtain ⟨h1, h2, -⟩ :=
    ParticleSystem.updateLoop_spec sq s.config s.edgePaths dt nowMs s.particles
  have hfilter :
      s.particles.filter (fun p => decide (p.edgePath.length ≤ p.edgeIndex)) =
        s.particles.filter (fun p => decide (p.edgeIndex = p.edgePath.length)) := by
    refine List.filter_congr ?_
    intro p hp
    have := hinv p hp
    exact decide_eq_decide.mpr (by omega)
  refine ⟨?_, ?_, ?_⟩
  · intro p hp
    rw [show (ParticleSystem.updateParticles sq s dt nowMs).particles =
        (ParticleSystem.updateLoop sq s.config s.edgePaths dt nowMs s.particles).1 from rfl,
      h1] at hp
    obtain ⟨q, hq, rfl⟩ := List.mem_map.mp hp
    rw [List.mem_filter] at hq
    obtain ⟨hfields, hidx⟩ :=
      ParticleSystem.stepParticle_fields sq s.config s.edgePaths dt q
    have hqlt : q.edgeIndex < q.edgePath.length := by
      simpa using hq.2
    rw [hfields]
    rcases hidx with h | h <;> omega
  · exact h1
  · rw [show (ParticleSystem.updateParticles sq s dt nowMs).completedCount =
        s.completedCount +
          (ParticleSystem.updateLoop sq s.config s.edgePaths dt nowMs s.particles).2.1 from rfl,
      h2, hfilter]

/-- The `Required<ParticleSystemConfig>` produced by the constructor with an
empty argument: all defaults, no start node. -/
def psConfig0 : ParticleSystemConfig :=
  ⟨50, 3, 1, ["#6366f1", "#8b5cf6", "#a78bfa"], 25, (3, 5), (2/5, 4/5), none, true,
   "#000000", 3/50, 3/2, 0⟩

/-- A particle that has already traversed its whole (empty) path. -/
def doneParticle : Particle := ⟨"p0", [], 0, 0, 1, "#6366f1", [], 25, 3, 0⟩

/-- A system holding one completed particle. -/
def psOneDone : ParticleState := ⟨[doneParticle], [], [], psConfig0, 0, 0, []⟩

/-- Witness for C5 at a concrete input: the one completed particle is
removed and counted. -/
theorem C5_edge_index_invariant_witness :
    (ParticleSystem.updateParticles (fun q => q) psOneDone 16 0).particles = [] ∧
    (ParticleSystem.updateParticles (fun q => q) psOneDone 16 0).completedCount = 1 := by
  have h := C5_edge_index_invariant (fun q => q) psOneDone 16 0
    (by intro p hp
        simp only [psOneDone] at hp
        rw [List.mem_singleton] at hp
        subst hp
        exact Nat.le_refl 0)
  refine ⟨?_, ?_⟩
  · rw [h.2.1]; rfl
  · rw [h.2.2]; rfl

namespace ParticleSystem

/-- `spawnOne` keeps the configuration and respects the capacity bound. -/
theorem spawnOne_step (adj : String → List EdgeInfo) (s : ParticleState) (d : SpawnDraws)
    (h : s.particles.length ≤ s.config.maxParticles) :
    (spawnOne adj s d).particles.length ≤ s.config.maxParticles ∧
    (spawnOne adj s d).config = s.config := by
  unfold spawnOne
  dsimp only
  (repeat' split) <;> refine ⟨?_, rfl⟩ <;> first | exact h | (simp_all <;> omega)

/-- `spawnFrom` keeps the configuration and respects the capacity bound. -/
theorem spawnFrom_step (adj : String → List EdgeInfo) (s : ParticleState) (nodeId : String)
    (d : SpawnDraws) (h : s.particles.length ≤ s.config.maxParticles) :
    (spawnFrom adj s nodeId d).particles.length ≤ s.config.maxParticles ∧
    (spawnFrom adj s nodeId d).config = s.config := by
  unfold spawnFrom
  dsimp only
  (repeat' split) <;> refine ⟨?_, rfl⟩ <;> first | exact h | (simp_all <;> omega)

/-- The scheduled spawn keeps the configuration and respects the capacity
bound. -/
theorem spawnParticle_step (adj : String → List EdgeInfo) (s : ParticleState) (time : ℚ)
    (d : SpawnDraws) (h : s.particles.length ≤ s.config.maxParticles) :
    (spawnParticle adj s time d).particles.length ≤ s.config.maxParticles ∧
    (spawnParticle adj s time d).config = s.config := by
  unfold spawnParticle
  dsimp only
  (repeat' split) <;> refine ⟨?_, rfl⟩ <;> first | exact h | (simp_all <;> omega)

/-- An update pass never increases the particle count. -/
theorem updateParticles_length_le (sq : ℚ → ℚ) (s : ParticleState) (dt nowMs : ℚ) :
    (updateParticles sq s dt nowMs).particles.length ≤ s.particles.length := by
  obtain ⟨h1, -, -⟩ := updateLoop_spec sq s.config s.edgePaths dt nowMs s.particles
  rw [show (updateParticles sq s dt nowMs).particles =
      (updateLoop sq s.config s.edgePaths dt nowMs s.particles).1 from rfl, h1,
    List.length_map]
  exact List.length_filter_le _ _

/-- Each public operation keeps the configuration and the capacity bound. -/
theorem applyOp_step (sq : ℚ → ℚ) (adj : String → List EdgeInfo) (s : ParticleState)
    (op : PSOp) (h : s.particles.length ≤ s.config.maxParticles) :
    (applyOp sq adj s op).particles.length ≤ s.config.maxParticles ∧
    (applyOp sq adj s op).config = s.config := by
  cases op with
  | tick dt time nowMs d =>
    obtain ⟨h1, h2⟩ := spawnParticle_step adj s time d h
    have h3 := updateParticles_length_le sq (spawnParticle adj s time d) dt nowMs
    constructor
    · calc (applyOp sq adj s (.tick dt time nowMs d)).particles.length
          = (updateParticles sq (spawnParticle adj s time d) dt nowMs).particles.length := rfl
        _ ≤ (spawnParticle adj s time d).particles.length := h3
        _ ≤ s.config.maxParticles := h1
    · calc (applyOp sq adj s (.tick dt time nowMs d)).config
          = (spawnParticle adj s time d).config := rfl
        _ = s.config := h2
  | one d => exact spawnOne_step adj s d h
  | from_ nodeId d => exact spawnFrom_step adj s nodeId d h

/-- The bound and the configuration are preserved along any op sequence. -/
theorem runOps_inv (sq : ℚ → ℚ) (adj : String → List EdgeInfo) (ops : List PSOp) :
    ∀ s : ParticleState, s.particles.length ≤ s.config.maxParticles →
      (runOps sq adj s ops).particles.length ≤ s.config.maxParticles ∧
      (runOps sq adj s ops).config = s.config := by
  induction ops with
  | nil => intro s h; exact ⟨h, rfl⟩
  | cons op rest ih =>
    intro s h
    obtain ⟨h1, h2⟩ := applyOp_step sq adj s op h
    obtain ⟨h3, h4⟩ := ih (applyOp sq adj s op) (by rw [h2]; exact h1)
    refine ⟨?_, ?_⟩
    · calc (runOps sq adj s (op :: rest)).particles.length
          = (runOps sq adj (applyOp sq adj s op) rest).particles.length := rfl
        _ ≤ (applyOp sq adj s op).config.maxParticles := h3
        _ = s.config.maxParticles := by rw [h2]
    · calc (runOps sq adj s (op :: rest)).config
          = (runOps sq adj (applyOp sq adj s op) rest).config := rfl
        _ = (applyOp sq adj s op).config := h4
        _ = s.config := h2

end ParticleSystem

/-- C6: if the live particle count is at most maxParticles and the
configuration is not changed, then after any sequence of update, spawnOne
and spawnFrom calls the count never exceeds maxParticles; a spawn attempted
at or above capacity leaves the particle list unchanged (skipped, never
queued — the state has no queue to put it in). -/
theorem C6_capacity_bound (sq : ℚ → ℚ) (adj : String → List EdgeInfo) (s : ParticleState)
    (hcap : s.particles.length ≤ s.config.maxParticles) (ops : List PSOp) :
    (ParticleSystem.runOps sq adj s ops).particles.length ≤ s.config.maxParticles ∧
    (ParticleSystem.runOps sq adj s ops).config = s.config ∧
    (∀ d nodeId time, s.config.maxParticles ≤ s.particles.length →
      (ParticleSystem.spawnOne adj s d).particles = s.particles ∧
      (ParticleSystem.spawnFrom adj s nodeId d).particles = s.particles ∧
      (ParticleSystem.spawnParticle adj s time d).particles = s.particles) := by
  obtain ⟨h1, h2⟩ := ParticleSystem.runOps_inv sq adj ops s hcap
  refine ⟨h1, h2, ?_⟩
  intro d nodeId time hfull
  refine ⟨?_, ?_, ?_⟩
  · unfold ParticleSystem.spawnOne
    dsimp only
    (repeat' split) <;> first | rfl | (simp_all <;> omega)
  · unfold ParticleSystem.spawnFrom
    dsimp only
    (repeat' split) <;> first | rfl | (simp_all <;> omega)
  · unfold ParticleSystem.spawnParticle
    dsimp only
    (repeat' split) <;> first | rfl | (simp_all <;> omega)

/-- Witness for C6 at a concrete input: one live particle, capacity 50,
running one manual spawn keeps the count within bounds. -/
theorem C6_capacity_bound_witness :
    (ParticleSystem.runOps (fun q => q) chainAdj psOneDone
        [PSOp.one ⟨"p1", fun _ => 0, 9, 0, 0, 0, 0⟩]).particles.length ≤
      psOneDone.config.maxParticles :=
  (C6_capacity_bound (fun q => q) chainAdj psOneDone (by simp [psOneDone, psConfig0])
      [PSOp.one ⟨"p1", fun _ => 0, 9, 0, 0, 0, 0⟩]).1

/-- C7 (amended): `spawnOne` and the scheduled spawn inside `update` are
no-ops on the particle collection when no start node is configured, when
the live count is at or above maxParticles, or when the router returns an
empty path (the scheduled spawn may still record the spawn time);
`spawnFrom` never consults the configured start node: it is a no-op only
at capacity or when the router returns an empty path from its argument. -/
theorem C7_spawn_noop (adj : String → List EdgeInfo) (s : ParticleState) (d : SpawnDraws)
    (nodeId : String) (time : ℚ) :
    ((strTruthy s.config.startNodeId = false ∨
        s.config.maxParticles ≤ s.particles.length ∨
        (ParticleSystem.generatePath adj d.pathDraws d.fuel
            (s.config.startNodeId.getD "")).1 = []) →
      ParticleSystem.spawnOne adj s d = s ∧
      (ParticleSystem.spawnParticle adj s time d).particles = s.particles) ∧
    ((s.config.maxParticles ≤ s.particles.length ∨
        (ParticleSystem.generatePath adj d.pathDraws d.fuel nodeId).1 = []) →
      ParticleSystem.spawnFrom adj s nodeId d = s) := by
  constructor
  · intro h
    constructor
    · unfold ParticleSystem.spawnOne
      dsimp only
      (repeat' split) <;> first | rfl | (rcases h with h | h | h <;> simp_all <;> omega)
    · unfold ParticleSystem.spawnParticle
      dsimp only
      (repeat' split) <;> first | rfl | (rcases h with h | h | h <;> simp_all <;> omega)
  · intro h
    unfold ParticleSystem.spawnFrom
    dsimp only
    (repeat' split) <;> first | rfl | (rcases h with h | h <;> simp_all <;> omega)

/-- The particle system with default configuration (no start node set),
empty collections. -/
def psNoStart : ParticleState := ⟨[], [], [], psConfig0, 0, 0, []⟩

/-- The draws consumed by the spawns used in concrete runs. -/
def draws0 : SpawnDraws := ⟨"p1", fun _ => 0, 9, 0, 0, 0, 0⟩

/-- C7 (counterexample): with no start node configured, `spawnFrom` is not
a no-op: on the chain graph it pushes a particle anyway, because it never
checks `config.startNodeId`. -/
theorem C7_counterexample :
    psNoStart.config.startNodeId = none ∧
    (ParticleSystem.spawnFrom chainAdj psNoStart "a" draws0).particles.length = 1 := by
  refine ⟨rfl, ?_⟩
  norm_num [ParticleSystem.spawnFrom, psNoStart, psConfig0, draws0,
    ParticleSystem.generatePath, ParticleSystem.generatePathAux, ParticleSystem.pickEdge,
    ParticleSystem.totalWeight, chainAdj]

/-- Witness for C7 at concrete inputs: `spawnOne` with no start node set is
the identity, and `spawnFrom` from the sink "c" is the identity. -/
theorem C7_spawn_noop_witness :
    ParticleSystem.spawnOne chainAdj psNoStart draws0 = psNoStart ∧
    ParticleSystem.spawnFrom chainAdj psNoStart "c" draws0 = psNoStart :=
  ⟨((C7_spawn_noop chainAdj psNoStart draws0 "c" 0).1 (Or.inl rfl)).1,
   (C7_spawn_noop chainAdj psNoStart draws0 "c" 0).2 (Or.inr rfl)⟩

/-- `getProcedureConfig(nodeId).stages.length`: the stage count used by the
`at_procedure_stage` branch of `updateCase`. -/
def procStageCount (nodes : List NodeData) (nodeId : String) : ℕ :=
  (CaseEngine.getProcedureConfig nodes nodeId).length

/-- The invariant exactly as the spec claims it: stage index in
[0, stageCount) iff the case is at a procedure stage, and -1 in every
other state. -/
def claimedStageInv (nodes : List NodeData) (c : Case) : Prop :=
  (c.state = .at_procedure_stage ↔
    0 ≤ c.currentStageIndex ∧
      c.currentStageIndex < (procStageCount nodes c.currentNodeId : ℤ)) ∧
  (c.state ≠ .at_procedure_stage → c.currentStageIndex = -1)

/-- The invariant the code actually maintains: bounds at a procedure
stage, -1 at inbox and outbox, but in `transitioning` the index may also
retain the index of the just-completed stage. -/
def stageInv (nodes : List NodeData) (c : Case) : Prop :=
  (c.state = .at_procedure_stage →
    0 ≤ c.currentStageIndex ∧
      c.currentStageIndex < (procStageCount nodes c.currentNodeId : ℤ)) ∧
  (c.state = .at_inbox → c.currentStageIndex = -1) ∧
  (c.state = .at_outbox → c.currentStageIndex = -1) ∧
  (c.state = .transitioning →
    c.currentStageIndex = -1 ∨
      (0 ≤ c.currentStageIndex ∧
        c.currentStageIndex < (procStageCount nodes c.currentNodeId : ℤ)))

/-- When `getNodeType` answers "procedure", the stage count of that node is
positive, provided every procedure node has a nonempty stage list. -/
theorem procStageCount_pos (nodes : List NodeData)
    (H : ∀ n ∈ nodes, n.nodeType = some "procedure" →
          0 < (n.stages.getD DEFAULT_PROCEDURE_STAGES).length)
    (nodeId : String) (h : CaseEngine.getNodeType nodes nodeId = some "procedure") :
    0 < procStageCount nodes nodeId := by
  unfold CaseEngine.getNodeType at h
  unfold procStageCount CaseEngine.getProcedureConfig
  cases hf : CaseEngine.findNode nodes nodeId with
  | none => rw [hf] at h; simp at h
  | some n =>
    rw [hf] at h
    simp only [Option.some_bind] at h
    have hn : n ∈ nodes := List.mem_of_find?_eq_some hf
    simp only [Option.some_bind]
    exact H n hn h

/-- C1 (amended): provided every procedure node has at least one stage,
`spawnCase` establishes and `updateCase` preserves: stage index in
[0, stageCount) when at a procedure stage, -1 at the inbox and the outbox;
in `transitioning` the index is -1 or still the index of the stage the
case just completed (the code does not reset it to -1 on leaving a
procedure). -/
theorem C1_stage_invariant (env : CaseEnv)
    (H : ∀ n ∈ env.nodes, n.nodeType = some "procedure" →
          0 < (n.stages.getD DEFAULT_PROCEDURE_STAGES).length) :
    (∀ counterNext : ℕ, ∀ now rand : ℚ,
        stageInv env.nodes (CaseEngine.spawnCase env.nodes counterNext now rand)) ∧
    (∀ (c : Case) (now : ℚ) (c' : Case), stageInv env.nodes c →
        CaseEngine.updateCase env c now = some c' → stageInv env.nodes c') := by
  constructor
  · intro counterNext now rand
    simp [stageInv, CaseEngine.spawnCase]
  · rintro c now c' hinv h
    obtain ⟨hproc, hinb, houtb, htrans⟩ := hinv
    obtain ⟨cid, cstate, cnode, cidx, cprog, cspawn, cstart, chold⟩ := c
    cases cstate with
    | at_inbox =>
      have hidx : cidx = -1 := hinb rfl
      subst hidx
      unfold CaseEngine.updateCase at h
      dsimp only at h
      (repeat' split at h) <;> (injection h with h'; subst h') <;> simp [stageInv]
    | at_procedure =>
      unfold CaseEngine.updateCase at h
      dsimp only at h
      injection h with h'
      subst h'
      exact ⟨hproc, hinb, houtb, htrans⟩
    | at_outbox =>
      have hidx : cidx = -1 := houtb rfl
      subst hidx
      unfold CaseEngine.updateCase at h
      dsimp only at h
      (repeat' split at h) <;> first
        | ((injection h with h'; subst h'); simp [stageInv])
        | (cases h)
    | at_procedure_stage =>
      have hm := hproc rfl
      unfold CaseEngine.updateCase at h
      dsimp only at h
      (repeat' split at h) <;> (injection h with h'; subst h') <;>
        simp only [stageInv, procStageCount] at hm ⊢ <;>
        simp_all <;> omega
    | transitioning =>
      unfold CaseEngine.updateCase at h
      dsimp only at h
      (repeat' split at h) <;> (injection h with h'; subst h') <;>
        simp only [stageInv] at htrans ⊢
      all_goals simp_all
      · -- enter a procedure: fresh index 0 must be below its stage count
        rename_i hnt
        exact procStageCount_pos env.nodes H _ hnt

/-- Node environment for the C1 counterexample: one procedure node "p"
with a single stage; procedural order inbox → p → outbox. -/
def cexNodes : List NodeData :=
  [⟨"p", some "procedure", none, none, none, none, some [⟨"Single Stage", "ai", none⟩]⟩]

/-- Engine environment for the C1 counterexample (default config). -/
def cexEnv : CaseEnv := ⟨cexNodes, ["inbox", "p", "outbox"], ⟨100, 500⟩⟩

/-- The case reached after the inbox hold (500 ms), the 100 ms transition,
and the single 500 ms stage: transitioning away from "p" with stage
index still 0. -/
def cexCase : Case := ⟨"case-1", .transitioning, "p", 0, 0, 0, 1100, some 500⟩

/-- C1 (counterexample): a reachable case (spawn, then ticks at 500, 600
and 1100 ms) is in state `transitioning` with stage index 0, because the
`at_procedure_stage → transitioning` branch does not reset the index to
-1; the claimed invariant fails on it. -/
theorem C1_counterexample :
    ((CaseEngine.updateCase cexEnv (CaseEngine.spawnCase cexNodes 1 0 0) 500).bind
        (fun c => CaseEngine.updateCase cexEnv c 600)).bind
        (fun c => CaseEngine.updateCase cexEnv c 1100) = some cexCase ∧
    cexCase.state ≠ .at_procedure_stage ∧
    cexCase.currentStageIndex ≠ -1 ∧
    ¬ claimedStageInv cexNodes cexCase := by
  have h1 : CaseEngine.updateCase cexEnv (CaseEngine.spawnCase cexNodes 1 0 0) 500 =
      some ⟨"case-1", .transitioning, "inbox", -1, 0, 0, 500, some 500⟩ := by
    simp [CaseEngine.updateCase, CaseEngine.spawnCase, CaseEngine.getInboxConfig,
      CaseEngine.findNode, CaseEngine.getNextNodeId, cexEnv, cexNodes, strTruthy,
      List.indexOf?]
    norm_num
    rfl
  have h2 : CaseEngine.updateCase cexEnv
      (⟨"case-1", .transitioning, "inbox", -1, 0, 0, 500, some 500⟩ : Case) 600 =
      some ⟨"case-1", .at_procedure_stage, "p", 0, 0, 0, 600, some 500⟩ := by
    simp [CaseEngine.updateCase, CaseEngine.getNextNodeId, CaseEngine.getNodeType,
      CaseEngine.findNode, cexEnv, cexNodes, strTruthy, List.indexOf?]
    norm_num
  have h3 : CaseEngine.updateCase cexEnv
      (⟨"case-1", .at_procedure_stage, "p", 0, 0, 0, 600, some 500⟩ : Case) 1100 =
      some cexCase := by
    simp [CaseEngine.updateCase, CaseEngine.getProcedureConfig,
      CaseEngine.findNode, cexEnv, cexNodes, cexCase]
    norm_num
  rw [h1, Option.some_bind, h2, Option.some_bind, h3]
  refine ⟨rfl, by decide, by decide, ?_⟩
  intro hclaim
  have := hclaim.1.mpr (by decide)
  exact absurd this (by decide)

/-- Witness for C1 at a concrete input: the counterexample environment
satisfies the nonempty-stages hypothesis, and a freshly spawned case
satisfies the actual invariant. -/
theorem C1_stage_invariant_witness :
    stageInv cexNodes (CaseEngine.spawnCase cexNodes 1 0 0) :=
  (C1_stage_invariant cexEnv (by
      intro n hn hp
      simp only [cexEnv, cexNodes, List.mem_singleton] at hn
      subst hn
      simp)).1 1 0 0
